import Mathlib

/-
Verification of the Notion MCP adapter (src/main.py) against its
natural-language specification.  The Python module is shallowly embedded:
JSON values become the inductive type JVal, Python dictionaries become
association lists with first-match lookup, HTTP traffic becomes explicit
response values or response oracles, and Python exceptions become the
error side of Except.
-/

namespace NotionMCP

/-- A JSON-like Python value. -/
inductive JVal where
  | null : JVal
  | bool : Bool → JVal
  | num : Int → JVal
  | str : String → JVal
  | list : List JVal → JVal
  | obj : List (String × JVal) → JVal

/-- A Python dictionary with string keys, as an association list. -/
abbrev Dict := List (String × JVal)

/-- Dictionary lookup, first match wins. -/
def dGet (d : Dict) (k : String) : Option JVal :=
  match d with
  | [] => none
  | (k2, v) :: rest => if k2 = k then some v else dGet rest k

/-- Dictionary lookup with a default value, as in the Python method get. -/
def dGetD (d : Dict) (k : String) (default : JVal) : JVal :=
  (dGet d k).getD default

/-- Python truthiness test, negated: true exactly on falsy values. -/
def pyFalsy : JVal → Bool
  | JVal.null => true
  | JVal.bool b => !b
  | JVal.num n => n == 0
  | JVal.str s => s.isEmpty
  | JVal.list xs => xs.isEmpty
  | JVal.obj fields => fields.isEmpty

/-- Error string built by every operation for a non-200 upstream status. -/
def errorMessage (status : Nat) (text : String) : String :=
  "Erro " ++ toString status ++ ": " ++ text

/-- Removes every hyphen from an identifier, as the Python replace call does. -/
def stripHyphens (s : String) : String :=
  String.mk (s.data.filter (fun c => c ≠ '-'))

/-! ## Paginator: get_paginated_content -/

/-- One upstream response consumed by the pagination loop. -/
structure NotionPage where
  status : Nat
  text : String
  results : List Dict
  has_more : Bool
  next_cursor : Option String

/-- Result of the pagination loop. -/
inductive PagOutcome where
  | ok (results : List Dict) (count : Nat)
  | httpError (msg : String)
  | outOfPages

/-- The pagination while loop of get_paginated_content.  The server is
modelled as the finite list of responses it will give to the successive
requests; the second component of the result counts the requests issued.
The constructor outOfPages is a model artifact marking that the loop
wanted yet another response beyond the supplied list. -/
def get_paginated_content_loop : List NotionPage → Nat → List Dict → Nat →
    PagOutcome × Nat
  | pages, max_blocks, acc, count =>
    if count < max_blocks then
      match pages with
      | [] => (PagOutcome.outOfPages, 0)
      | p :: rest =>
        if p.status = 200 then
          let acc2 := acc ++ p.results
          let count2 := count + p.results.length
          if p.has_more then
            match p.next_cursor with
            | some c =>
              if c = "" then (PagOutcome.ok acc2 count2, 1)
              else
                match get_paginated_content_loop rest max_blocks acc2 count2 with
                | (o, n) => (o, n + 1)
            | none => (PagOutcome.ok acc2 count2, 1)
          else (PagOutcome.ok acc2 count2, 1)
        else (PagOutcome.httpError (errorMessage p.status p.text), 1)
    else (PagOutcome.ok acc count, 0)

/-- get_paginated_content from src/main.py, over a modelled server. -/
def get_paginated_content (pages : List NotionPage) (max_blocks : Nat) :
    PagOutcome × Nat :=
  get_paginated_content_loop pages max_blocks [] 0

/-! ## Python container primitives with their exception behaviour -/

/-- Substring test used by Python membership on strings. -/
def strContains (hay needle : String) : Bool :=
  needle == "" || (hay.splitOn needle).length ≥ 2

/-- The Python membership test with a string on the left; raises a
TypeError on values that are not containers. -/
def pyInS (s : String) : JVal → Except String Bool
  | JVal.obj fields => Except.ok (dGet fields s).isSome
  | JVal.list xs =>
      Except.ok (xs.any fun x => match x with
        | JVal.str t => t == s
        | _ => false)
  | JVal.str t => Except.ok (strContains t s)
  | _ => Except.error "TypeError"

/-- Python subscription with a string key. -/
def pyGetItem : JVal → String → Except String JVal
  | JVal.obj fields, k =>
      match dGet fields k with
      | some v => Except.ok v
      | none => Except.error "KeyError"
  | _, _ => Except.error "TypeError"

/-- The Python dict method get with a default; AttributeError off dicts. -/
def pyDictGet : JVal → String → JVal → Except String JVal
  | JVal.obj fields, k, default => Except.ok (dGetD fields k default)
  | _, _, _ => Except.error "AttributeError"

/-- The Python dict method get without a default, None when absent. -/
def pyDictGetOpt : JVal → String → Except String (Option JVal)
  | JVal.obj fields, k => Except.ok (dGet fields k)
  | _, _ => Except.error "AttributeError"

/-- Python iteration over a value. -/
def pyIter : JVal → Except String (List JVal)
  | JVal.list xs => Except.ok xs
  | JVal.obj fields => Except.ok (fields.map fun p => JVal.str p.1)
  | JVal.str s => Except.ok (s.data.map fun c => JVal.str (String.mk [c]))
  | _ => Except.error "TypeError"

/-! ## Text extraction helpers -/

/-- The loop of extract_text_from_rich_text: collects the content field of
every run that has one, skipping runs without. -/
def collect_text_parts : List JVal → Except String (List JVal)
  | [] => Except.ok []
  | t :: rest => do
    let b1 ← pyInS "text" t
    if b1 then
      let tv ← pyGetItem t "text"
      let b2 ← pyInS "content" tv
      if b2 then
        let c ← pyGetItem tv "content"
        let others ← collect_text_parts rest
        pure (c :: others)
      else collect_text_parts rest
    else collect_text_parts rest

/-- Checks in order that every part is a string, as the join method does,
raising a TypeError at the first part that is not. -/
def ensure_strings : List JVal → Except String (List String)
  | [] => Except.ok []
  | v :: rest =>
    match v with
    | JVal.str s => (ensure_strings rest).map (fun others => s :: others)
    | _ => Except.error "TypeError"

/-- The join method on a single space: raises unless every part is a
string. -/
def joinWithSpace (parts : List JVal) : Except String String :=
  (ensure_strings parts).map (fun strs => String.intercalate " " strs)

/-- extract_text_from_rich_text from src/main.py. -/
def extract_text_from_rich_text (rich_text : JVal) : Except String String := do
  let items ← pyIter rich_text
  let parts ← collect_text_parts items
  joinWithSpace parts

/-- The list comprehension of extract_title: the plain_text field of each
run, with the empty string as default, raising off dictionaries. -/
def map_plain_text : List JVal → Except String (List JVal)
  | [] => Except.ok []
  | t :: rest => do
    let v ← pyDictGet t "plain_text" (JVal.str "")
    let others ← map_plain_text rest
    pure (v :: others)

/-- extract_title from src/main.py: joins the plain_text field of every
run of the title array, with the empty string as default. -/
def extract_title (title_prop : Dict) : Except String String := do
  let title_array := dGetD title_prop "title" (JVal.list [])
  if pyFalsy title_array then pure ""
  else do
    let items ← pyIter title_array
    let parts ← map_plain_text items
    joinWithSpace parts

/-! ## format_block and the image branch of parse_page_content -/

/-- The three fields every formatted block starts with. -/
def blockBase (block : Dict) : Dict :=
  [("id", dGetD block "id" (JVal.str "")),
   ("type", dGetD block "type" (JVal.str "unknown")),
   ("has_children", dGetD block "has_children" (JVal.bool false))]

/-- Whether the block carries a payload keyed by its own string type tag. -/
def hasTypePayload (block : Dict) : Bool :=
  match dGetD block "type" (JVal.str "unknown") with
  | JVal.str bt => (dGet block bt).isSome
  | _ => false

/-- Whether the type value of the block is hashable in the Python sense:
anything but a list or a dictionary. -/
def hashableType (block : Dict) : Bool :=
  match dGetD block "type" (JVal.str "unknown") with
  | JVal.list _ => false
  | JVal.obj _ => false
  | _ => true

/-- The type specific fields format_block appends for the payload. -/
def format_block_payload_fields (bt : String) (content_data : JVal) :
    Except String Dict := do
  let hasRT ← pyInS "rich_text" content_data
  let textPart ←
    if hasRT then do
      let rt ← pyGetItem content_data "rich_text"
      let txt ← extract_text_from_rich_text rt
      pure [("text", JVal.str txt)]
    else pure ([] : Dict)
  if bt = "to_do" then do
    let c ← pyDictGet content_data "checked" (JVal.bool false)
    pure (textPart ++ [("checked", c)])
  else if bt = "code" then do
    let l ← pyDictGet content_data "language" (JVal.str "")
    pure (textPart ++ [("language", l)])
  else if bt = "image" then do
    let hasFile ← pyInS "file" content_data
    if hasFile then do
      let fv ← pyGetItem content_data "file"
      let u ← pyDictGet fv "url" (JVal.str "")
      pure (textPart ++ [("url", u)])
    else do
      let hasExt ← pyInS "external" content_data
      if hasExt then do
        let ev ← pyGetItem content_data "external"
        let u ← pyDictGet ev "url" (JVal.str "")
        pure (textPart ++ [("url", u)])
      else pure textPart
  else pure textPart

/-- format_block from src/main.py.  The membership test of the type value
against the block keys raises a TypeError when that value is unhashable
(a list or a dictionary); a hashable non-string value matches no string
key, so the payload step is skipped. -/
def format_block (block : Dict) : Except String Dict :=
  match dGetD block "type" (JVal.str "unknown") with
  | JVal.str bt =>
    match dGet block bt with
    | some content_data =>
      (format_block_payload_fields bt content_data).map
        (fun extra => blockBase block ++ extra)
    | none => Except.ok (blockBase block)
  | JVal.list _ => Except.error "TypeError"
  | JVal.obj _ => Except.error "TypeError"
  | _ => Except.ok (blockBase block)

/-- The image branch of parse_page_content from src/main.py: the url comes
from the file reference when present, else the external reference. -/
def parse_image_url (block_data : JVal) : Except String (Option JVal) := do
  let hasFile ← pyInS "file" block_data
  if hasFile then do
    let fv ← pyGetItem block_data "file"
    pyDictGetOpt fv "url"
  else do
    let hasExt ← pyInS "external" block_data
    if hasExt then do
      let ev ← pyGetItem block_data "external"
      pyDictGetOpt ev "url"
    else pure none

/-! ## Walker: get_page_content_optimized -/

/-- A response of the block children endpoint, or a raised exception. -/
inductive FetchResult where
  | raises (msg : String)
  | resp (status : Nat) (text : String) (results : List Dict) (has_more : Bool)

/-- The dictionary returned by get_page_content_optimized: either the
error dictionary for a non-200 status, or blocks with count and the
has_more flag. -/
inductive WalkRet where
  | error (msg : String)
  | ok (blocks : List Dict) (count : Nat) (has_more : Bool)

/-- The block loop of get_page_content_optimized.  The child argument is
the recursive call when the depth allows recursion, and none otherwise.
Returns the formatted blocks, or the raised exception, together with the
number of requests issued by child fetches.  A failure raised inside a
child fetch becomes a children_error marker; a child fetch returning the
error dictionary attaches nothing; passing a missing or non-string id to
the child raises inside the protected region and is likewise caught. -/
def processBlocks (child : Option (String → Except String WalkRet × Nat)) :
    List Dict → Except String (List Dict) × Nat
  | [] => (Except.ok [], 0)
  | block :: rest =>
    match format_block block with
    | Except.error m => (Except.error m, 0)
    | Except.ok fb =>
      let step : Dict × Nat :=
        match child with
        | none => (fb, 0)
        | some cw =>
          if pyFalsy (dGetD block "has_children" (JVal.bool false)) then (fb, 0)
          else
            match dGet block "id" with
            | some (JVal.str cid) =>
              match cw cid with
              | (Except.error m, n) => (fb ++ [("children_error", JVal.str m)], n)
              | (Except.ok (WalkRet.error _), n) => (fb, n)
              | (Except.ok (WalkRet.ok cbs _ _), n) =>
                (fb ++ [("children", JVal.list (cbs.map JVal.obj))], n)
            | some _ => (fb ++ [("children_error", JVal.str "AttributeError")], 0)
            | none => (fb ++ [("children_error", JVal.str "KeyError: id")], 0)
      match processBlocks child rest with
      | (Except.error m, n2) => (Except.error m, step.2 + n2)
      | (Except.ok l, n2) => (Except.ok (step.1 :: l), step.2 + n2)

/-- Formats a list of blocks with no child fetching, as the walker does
at depth one: the first raised exception propagates. -/
def mapFormat : List Dict → Except String (List Dict)
  | [] => Except.ok []
  | b :: rest => do
    let fb ← format_block b
    let others ← mapFormat rest
    pure (fb :: others)

/-- One level of get_page_content_optimized: strip the identifier, fetch
the children of the page, format them, recursing through the child
function when present.  The second component counts requests, the own
fetch included. -/
def walkPage (fetch : String → Nat → FetchResult)
    (child : Option (String → Except String WalkRet × Nat))
    (page_id : String) (max_blocks : Nat) : Except String WalkRet × Nat :=
  match fetch (stripHyphens page_id) max_blocks with
  | FetchResult.raises m => (Except.error m, 1)
  | FetchResult.resp status text results has_more =>
    if status = 200 then
      match processBlocks child results with
      | (Except.error m, n) => (Except.error m, n + 1)
      | (Except.ok fbs, n) =>
        (Except.ok (WalkRet.ok fbs fbs.length has_more), n + 1)
    else (Except.ok (WalkRet.error (errorMessage status text)), 1)

/-- get_page_content_optimized from src/main.py, with the depth argument
first so the recursion is structural: a depth of one or less never
recurses, at greater depth each child with a truthy has_children flag is
fetched with the depth lowered by one and a page size cap of fifty. -/
def get_page_content_optimized (fetch : String → Nat → FetchResult) :
    Nat → String → Nat → Except String WalkRet × Nat
  | 0, page_id, max_blocks => walkPage fetch none page_id max_blocks
  | 1, page_id, max_blocks => walkPage fetch none page_id max_blocks
  | Nat.succ (Nat.succ d), page_id, max_blocks =>
    walkPage fetch
      (some fun cid => get_page_content_optimized fetch (Nat.succ d) cid 50)
      page_id max_blocks

/-! ## The single shot operations -/

/-- An upstream HTTP response as the operations see it. -/
structure HttpResponse where
  status : Nat
  text : String
  body : Dict

/-- Response handling of notion_query_databases from src/main.py. -/
def notion_query_databases (resp : HttpResponse) : Dict :=
  if resp.status = 200 then resp.body
  else [("error", JVal.str (errorMessage resp.status resp.text))]

/-- Response handling of get_notion_page from src/main.py. -/
def get_notion_page (resp : HttpResponse) : Dict :=
  if resp.status = 200 then resp.body
  else [("error", JVal.str (errorMessage resp.status resp.text))]

/-- Response handling of get_page_content from src/main.py. -/
def get_page_content (resp : HttpResponse) : Dict :=
  if resp.status = 200 then resp.body
  else [("error", JVal.str (errorMessage resp.status resp.text))]

/-- Response handling of update_page_properties from src/main.py. -/
def update_page_properties (resp : HttpResponse) : Dict :=
  if resp.status = 200 then resp.body
  else [("error", JVal.str (errorMessage resp.status resp.text))]

/-- Response handling of create_page from src/main.py. -/
def create_page (resp : HttpResponse) : Dict :=
  if resp.status = 200 then resp.body
  else [("error", JVal.str (errorMessage resp.status resp.text))]

/-- Response handling of append_page_content from src/main.py. -/
def append_page_content (resp : HttpResponse) : Dict :=
  if resp.status = 200 then resp.body
  else [("error", JVal.str (errorMessage resp.status resp.text))]

/-- Response handling of search_notion from src/main.py. -/
def search_notion (resp : HttpResponse) : Dict :=
  if resp.status = 200 then resp.body
  else [("error", JVal.str (errorMessage resp.status resp.text))]

/-! ## Request paths of the identifier taking operations -/

/-- The path built by notion_query_databases: the identifier is
interpolated as given, without any stripping. -/
def notion_query_databases_path (data_base_id : String) : String :=
  "databases/" ++ data_base_id ++ "/query"

/-- The path built by get_notion_page. -/
def get_notion_page_path (page_id : String) : String :=
  "pages/" ++ stripHyphens page_id

/-- The path built by get_page_content. -/
def get_page_content_path (page_id : String) : String :=
  "blocks/" ++ stripHyphens page_id ++ "/children"

/-- The path built by get_page_content_optimized. -/
def get_page_content_optimized_path (page_id : String) (max_blocks : Nat) :
    String :=
  "blocks/" ++ stripHyphens page_id ++ "/children?page_size=" ++
    toString max_blocks

/-- The path built by get_paginated_content. -/
def get_paginated_content_path (page_id : String) : String :=
  "blocks/" ++ stripHyphens page_id ++ "/children"

/-- The path built by update_page_properties. -/
def update_page_properties_path (page_id : String) : String :=
  "pages/" ++ stripHyphens page_id

/-- The path built by append_page_content. -/
def append_page_content_path (page_id : String) : String :=
  "blocks/" ++ stripHyphens page_id ++ "/children"

/-- The parent identifier placed in the body by create_page. -/
def create_page_parent_id (parent_id : String) : String :=
  stripHyphens parent_id

/-! ## Concrete instances used to settle the claims -/

/-- A page with one block that reports a continuation. -/
def pageOneMoreA : NotionPage := ⟨200, "", [[]], true, some "a"⟩

/-- A second page with one block that reports a continuation. -/
def pageOneMoreB : NotionPage := ⟨200, "", [[]], true, some "b"⟩

/-- A final page with one block. -/
def pageOneLast : NotionPage := ⟨200, "", [[]], false, none⟩

/-- A full page of one hundred blocks. -/
def pageFull : NotionPage := ⟨200, "", List.replicate 100 [], false, none⟩

/-- A page claiming more results but carrying no cursor. -/
def pageNoCursor : NotionPage := ⟨200, "", [[]], true, none⟩

/-- A failing upstream response. -/
def pageErr : NotionPage := ⟨404, "Not found", [], false, none⟩

/-- A concrete block that reports children. -/
def blockWithChild : Dict :=
  [("id", JVal.str "c"), ("type", JVal.str "x"),
   ("has_children", JVal.bool true)]

/-- A server on which the child fetch reports a 404. -/
def fetchChildError : String → Nat → FetchResult := fun pid _ =>
  if pid = "p" then FetchResult.resp 200 "" [blockWithChild] false
  else FetchResult.resp 404 "Not found" [] false

/-- A server on which the child fetch raises. -/
def fetchChildRaises : String → Nat → FetchResult := fun pid _ =>
  if pid = "p" then FetchResult.resp 200 "" [blockWithChild] false
  else FetchResult.raises "boom"

/-- A server on which the child fetch succeeds with an empty page. -/
def fetchChildOk : String → Nat → FetchResult := fun pid _ =>
  if pid = "p" then FetchResult.resp 200 "" [blockWithChild] false
  else FetchResult.resp 200 "" [] false

/-- A rich text run with a content field but no plain_text field. -/
def runHello : JVal :=
  JVal.obj [("text", JVal.obj [("content", JVal.str "Hello")])]

/-- A rich text run carrying matching plain_text and content fields. -/
def runBoth : JVal :=
  JVal.obj [("plain_text", JVal.str "Hi"),
            ("text", JVal.obj [("content", JVal.str "Hi")])]

/-- An image payload carrying both a file url and an external url. -/
def imagePayloadBoth : JVal :=
  JVal.obj [("file", JVal.obj [("url", JVal.str "A")]),
            ("external", JVal.obj [("url", JVal.str "B")])]

/-- An image block carrying both a file url and an external url. -/
def imageBlockBoth : Dict :=
  [("id", JVal.str "i"), ("type", JVal.str "image"),
   ("has_children", JVal.bool false), ("image", imagePayloadBoth)]

/-- A block whose type tag payload is a number: format_block raises on it. -/
def blockNumPayload : Dict :=
  [("type", JVal.str "x"), ("x", JVal.num 5)]

/-! ## Helper lemmas about the paginator -/

theorem ceil_step (d : Nat) (hd : 1 ≤ d) :
    (d - 100 + 99) / 100 + 1 ≤ (d + 99) / 100 := by
  rcases le_or_lt d 100 with h | h
  · have h0 : d - 100 + 99 = 99 := by omega
    rw [h0]
    have h99 : (99 : Nat) / 100 = 0 := by norm_num
    rw [h99]
    rw [Nat.le_div_iff_mul_le (by norm_num : 0 < 100)]
    omega
  · have h1 : d - 100 + 99 = d - 1 := by omega
    have h2 : d + 99 = (d - 1) + 100 := by omega
    rw [h1, h2, Nat.add_div_right _ (by norm_num : 0 < 100)]

theorem loop_requests_bound (pages : List NotionPage) :
    ∀ (c : Nat) (acc : List Dict) (count : Nat),
      (∀ p ∈ pages, p.results.length = 100) →
      (get_paginated_content_loop pages c acc count).2 ≤
        (c - count + 99) / 100 := by
  induction pages with
  | nil =>
    intro c acc count _
    rw [get_paginated_content_loop]
    split <;> simp
  | cons p rest ih =>
    intro c acc count hfull
    have hrest : ∀ q ∈ rest, q.results.length = 100 := by
      intro q hq
      exact hfull q (List.mem_cons_of_mem _ hq)
    have hp : p.results.length = 100 := hfull p (List.mem_cons_self p rest)
    rw [get_paginated_content_loop]
    by_cases hg : count < c
    · have h1 : 1 ≤ (c - count + 99) / 100 := by
        rw [Nat.le_div_iff_mul_le (by norm_num : 0 < 100)]
        omega
      rw [if_pos hg, hp]
      by_cases hs : p.status = 200
      · rw [if_pos hs]
        cases hm : p.has_more
        · exact h1
        · cases hcur : p.next_cursor with
          | none => exact h1
          | some cur =>
            by_cases hemp : cur = ""
            · subst hemp
              exact h1
            · rcases hrec : get_paginated_content_loop rest c (acc ++ p.results)
                  (count + 100) with ⟨o, n⟩
              have hih := ih c (acc ++ p.results) (count + 100) hrest
              rw [hrec] at hih
              have hbridge : c - (count + 100) + 99 = c - count - 100 + 99 := by
                omega
              rw [hbridge] at hih
              have hstep := ceil_step (c - count) (by omega)
              simp only [hrec, if_neg hemp, reduceIte]
              omega
      · rw [if_neg hs]
        exact h1
    · rw [if_neg hg]
      simp

theorem loop_count_ok (pages : List NotionPage) :
    ∀ (c : Nat) (acc : List Dict) (count : Nat),
      (∀ p ∈ pages, p.results.length ≤ 100) →
      acc.length = count → count < c + 100 →
      ∀ r n, (get_paginated_content_loop pages c acc count).1 =
          PagOutcome.ok r n →
        n = r.length ∧ n < c + 100 := by
  induction pages with
  | nil =>
    intro c acc count _ hlen hlt r n
    rw [get_paginated_content_loop]
    by_cases hg : count < c
    · rw [if_pos hg]
      intro h
      exact PagOutcome.noConfusion h
    · rw [if_neg hg]
      intro h
      injection h with h1 h2
      subst h1
      subst h2
      exact ⟨hlen.symm, hlt⟩
  | cons p rest ih =>
    intro c acc count hsmall hlen hlt r n
    have hrest : ∀ q ∈ rest, q.results.length ≤ 100 := by
      intro q hq
      exact hsmall q (List.mem_cons_of_mem _ hq)
    have hp : p.results.length ≤ 100 := hsmall p (List.mem_cons_self p rest)
    rw [get_paginated_content_loop]
    by_cases hg : count < c
    · have hlen2 : (acc ++ p.results).length = count + p.results.length := by
        simp [hlen]
      have hlt2 : count + p.results.length < c + 100 := by omega
      rw [if_pos hg]
      by_cases hs : p.status = 200
      · rw [if_pos hs]
        cases hm : p.has_more
        · intro h
          injection h with h1 h2
          subst h1
          subst h2
          refine ⟨hlen2.symm, ?_⟩
          omega
        · cases hcur : p.next_cursor with
          | none =>
            intro h
            injection h with h1 h2
            subst h1
            subst h2
            refine ⟨hlen2.symm, ?_⟩
            omega
          | some cur =>
            by_cases hemp : cur = ""
            · subst hemp
              intro h
              injection h with h1 h2
              subst h1
              subst h2
              refine ⟨hlen2.symm, ?_⟩
              omega
            · rcases hrec : get_paginated_content_loop rest c (acc ++ p.results)
                  (count + p.results.length) with ⟨o, m⟩
              have hih := ih c (acc ++ p.results) (count + p.results.length)
                hrest hlen2 (by omega) r n
              rw [hrec] at hih
              simp only [hrec, if_neg hemp, reduceIte]
              exact hih
      · rw [if_neg hs]
        intro h
        exact PagOutcome.noConfusion h
    · rw [if_neg hg]
      intro h
      injection h with h1 h2
      subst h1
      subst h2
      exact ⟨hlen.symm, hlt⟩

/-! ## Claim theorems -/

/-- C1 is false as stated: when the server returns pages that are not
full, the loop can issue more than the ceiling of the cap over one
hundred requests; here a cap of 101 leads to three requests while the
ceiling is two. -/
theorem c1_ceiling_bound_fails :
    (get_paginated_content [pageOneMoreA, pageOneMoreB, pageOneLast] 101).2 = 3 ∧
      (101 + 99) / 100 < 3 :=
  ⟨rfl, by norm_num⟩

/-- C1 (amended): each loop iteration issues exactly one request under
the guard that the running count is below the cap, and when every server
page carries exactly one hundred blocks the paginator issues at most the
ceiling of the cap over one hundred requests. -/
theorem c1_requests_within_ceiling (pages : List NotionPage) (c : Nat)
    (hfull : ∀ p ∈ pages, p.results.length = 100) :
    (get_paginated_content pages c).2 ≤ (c + 99) / 100 := by
  have h := loop_requests_bound pages c [] 0 hfull
  simpa using h

/-- Witness for the amended C1 at a concrete full page. -/
theorem c1_requests_within_ceiling_witness :
    (∀ p ∈ [pageFull], p.results.length = 100) ∧
      (get_paginated_content [pageFull] 100).2 ≤ (100 + 99) / 100 := by
  have hfull : ∀ p ∈ [pageFull], p.results.length = 100 := by
    intro p hp
    simp only [List.mem_singleton] at hp
    subst hp
    simp [pageFull]
  exact ⟨hfull, c1_requests_within_ceiling [pageFull] 100 hfull⟩

/-- C4: the pagination loop stops on the cap guard, on a page with a
false has_more flag, or on a page lacking a continuation cursor despite a
true has_more flag, the last treated as normal exhaustion rather than an
error; and since the cap is checked only between pages of at most one
hundred blocks, the returned count equals the number of returned blocks
and stays strictly below the cap plus one hundred. -/
theorem c4_pagination_termination (pages : List NotionPage)
    (p : NotionPage) (rest : List NotionPage) (c : Nat)
    (hsmall : ∀ q ∈ pages, q.results.length ≤ 100)
    (hs : p.status = 200) (hm : p.has_more = true)
    (hcur : p.next_cursor = none) (hpos : 0 < c) :
    (∀ r n, (get_paginated_content pages c).1 = PagOutcome.ok r n →
        n = r.length ∧ n < c + 100) ∧
    get_paginated_content (p :: rest) c =
      (PagOutcome.ok p.results p.results.length, 1) := by
  constructor
  · intro r n h
    exact loop_count_ok pages c [] 0 hsmall rfl (by omega) r n h
  · rw [get_paginated_content, get_paginated_content_loop]
    simp [hpos, hs, hm, hcur]

/-- C3 is false as stated: notion_query_databases interpolates the
database identifier into the request path without stripping hyphens, so
an identifier with hyphens reaches the transport unchanged. -/
theorem c3_query_databases_keeps_hyphens :
    notion_query_databases_path "ab-cd" = "databases/ab-cd/query" ∧
      notion_query_databases_path "ab-cd" ≠
        "databases/" ++ stripHyphens "ab-cd" ++ "/query" :=
  ⟨rfl, by decide⟩

/-- C3 (amended): every identifier taking operation except
notion_query_databases strips all hyphens from the identifier before it
reaches the transport path, while notion_query_databases passes the
database identifier through unchanged. -/
theorem c3_identifier_stripping (pid : String) (mb : Nat) :
    get_notion_page_path pid = "pages/" ++ stripHyphens pid ∧
    get_page_content_path pid = "blocks/" ++ stripHyphens pid ++ "/children" ∧
    get_page_content_optimized_path pid mb =
      "blocks/" ++ stripHyphens pid ++ "/children?page_size=" ++ toString mb ∧
    get_paginated_content_path pid =
      "blocks/" ++ stripHyphens pid ++ "/children" ∧
    update_page_properties_path pid = "pages/" ++ stripHyphens pid ∧
    append_page_content_path pid = "blocks/" ++ stripHyphens pid ++ "/children" ∧
    create_page_parent_id pid = stripHyphens pid ∧
    notion_query_databases_path pid = "databases/" ++ pid ++ "/query" ∧
    '-' ∉ (stripHyphens pid).data := by
  refine ⟨rfl, rfl, rfl, rfl, rfl, rfl, rfl, rfl, ?_⟩
  simp [stripHyphens]

/-- C5: every operation maps an upstream response with a status other
than 200 to exactly the error dictionary whose message is the word Erro,
the status and the raw text, and no upstream error escapes as a raised
exception. -/
theorem c5_error_shape (resp : HttpResponse) (h : resp.status ≠ 200)
    (fetch : String → Nat → FetchResult)
    (child : Option (String → Except String WalkRet × Nat))
    (pid : String) (mb s : Nat) (t : String) (res : List Dict) (hm : Bool)
    (hfetch : fetch (stripHyphens pid) mb = FetchResult.resp s t res hm)
    (hs : s ≠ 200)
    (p : NotionPage) (rest : List NotionPage) (c : Nat)
    (hp : p.status ≠ 200) (hc : 0 < c) :
    notion_query_databases resp =
      [("error", JVal.str (errorMessage resp.status resp.text))] ∧
    get_notion_page resp =
      [("error", JVal.str (errorMessage resp.status resp.text))] ∧
    get_page_content resp =
      [("error", JVal.str (errorMessage resp.status resp.text))] ∧
    update_page_properties resp =
      [("error", JVal.str (errorMessage resp.status resp.text))] ∧
    create_page resp =
      [("error", JVal.str (errorMessage resp.status resp.text))] ∧
    append_page_content resp =
      [("error", JVal.str (errorMessage resp.status resp.text))] ∧
    search_notion resp =
      [("error", JVal.str (errorMessage resp.status resp.text))] ∧
    walkPage fetch child pid mb =
      (Except.ok (WalkRet.error (errorMessage s t)), 1) ∧
    get_paginated_content (p :: rest) c =
      (PagOutcome.httpError (errorMessage p.status p.text), 1) := by
  refine ⟨?_, ?_, ?_, ?_, ?_, ?_, ?_, ?_, ?_⟩
  · simp [notion_query_databases, h]
  · simp [get_notion_page, h]
  · simp [get_page_content, h]
  · simp [update_page_properties, h]
  · simp [create_page, h]
  · simp [append_page_content, h]
  · simp [search_notion, h]
  · rw [walkPage, hfetch]
    simp [hs]
  · rw [get_paginated_content, get_paginated_content_loop]
    simp [hc, hp]

/-- Witness for C5 with a 404 and the body Not found. -/
theorem c5_error_shape_witness :
    ((404 : Nat) ≠ 200 ∧ (0 : Nat) < 5 ∧ pageErr.status ≠ 200) ∧
    get_notion_page ⟨404, "Not found", []⟩ =
      [("error", JVal.str "Erro 404: Not found")] ∧
    get_paginated_content [pageErr] 5 =
      (PagOutcome.httpError "Erro 404: Not found", 1) := by
  have h := c5_error_shape ⟨404, "Not found", []⟩ (by norm_num)
    (fun _ _ => FetchResult.resp 404 "Not found" [] false) none "p" 100
    404 "Not found" [] false rfl (by norm_num)
    pageErr [] 5 (by decide) (by norm_num)
  refine ⟨⟨by norm_num, by norm_num, by decide⟩, ?_, ?_⟩
  · exact h.2.1
  · exact h.2.2.2.2.2.2.2.2

/-- C10 is false as stated: format_block raises a TypeError on a block
whose type tag payload is not a dictionary, and also on a block whose
type value is unhashable, so it is not total on arbitrary block
dictionaries. -/
theorem c10_format_block_raises :
    format_block blockNumPayload = Except.error "TypeError" ∧
    format_block [("type", JVal.list [])] = Except.error "TypeError" :=
  ⟨rfl, rfl⟩

theorem format_block_shape (block : Dict) (d : Dict)
    (h : format_block block = Except.ok d) :
    ∃ extra, d = blockBase block ++ extra := by
  unfold format_block at h
  cases hbt : dGetD block "type" (JVal.str "unknown") with
  | str bt =>
    simp only [hbt] at h
    cases hpl : dGet block bt with
    | none =>
      simp only [hpl] at h
      injection h with h2
      exact ⟨[], by simp [h2.symm]⟩
    | some cd =>
      simp only [hpl] at h
      cases hfp : format_block_payload_fields bt cd with
      | error m =>
        simp only [hfp, Except.map] at h
        exact Except.noConfusion h
      | ok extra =>
        simp only [hfp, Except.map] at h
        injection h with h2
        exact ⟨extra, h2.symm⟩
  | null =>
    simp only [hbt] at h
    injection h with h2
    exact ⟨[], by simp [h2.symm]⟩
  | bool b =>
    simp only [hbt] at h
    injection h with h2
    exact ⟨[], by simp [h2.symm]⟩
  | num n =>
    simp only [hbt] at h
    injection h with h2
    exact ⟨[], by simp [h2.symm]⟩
  | list xs =>
    simp only [hbt] at h
    exact Except.noConfusion h
  | obj fl =>
    simp only [hbt] at h
    exact Except.noConfusion h

/-- C10 (amended): on a block whose type value is hashable and which
carries no payload keyed by its own string type tag, format_block
returns exactly the identifier, type and has_children fields with the
defaults empty string, unknown and false; and whenever format_block
returns at all, those three fields are present with those values, so
type specific fields appear only when the block carries a payload keyed
by its own type tag. -/
theorem c10_format_block_defaults (block : Dict) :
    (hashableType block = true → hasTypePayload block = false →
      format_block block = Except.ok (blockBase block) ∧
      dGet (blockBase block) "text" = none ∧
      dGet (blockBase block) "checked" = none ∧
      dGet (blockBase block) "language" = none ∧
      dGet (blockBase block) "url" = none) ∧
    (∀ d, format_block block = Except.ok d →
      dGet d "id" = some (dGetD block "id" (JVal.str "")) ∧
      dGet d "type" = some (dGetD block "type" (JVal.str "unknown")) ∧
      dGet d "has_children" =
        some (dGetD block "has_children" (JVal.bool false))) := by
  constructor
  · intro hhash hnp
    have hfmt : format_block block = Except.ok (blockBase block) := by
      unfold format_block
      unfold hashableType at hhash
      unfold hasTypePayload at hnp
      cases hbt : dGetD block "type" (JVal.str "unknown") with
      | str bt =>
        simp only [hbt] at hnp ⊢
        cases hpl : dGet block bt with
        | none => simp [hpl]
        | some cd => rw [hpl] at hnp; simp at hnp
      | null => simp only [hbt]
      | bool b => simp only [hbt]
      | num n => simp only [hbt]
      | list xs =>
        simp only [hbt] at hhash
        exact absurd hhash (by simp)
      | obj fl =>
        simp only [hbt] at hhash
        exact absurd hhash (by simp)
    refine ⟨hfmt, ?_, ?_, ?_, ?_⟩ <;> simp [blockBase, dGet]
  · intro d hd
    obtain ⟨extra, hx⟩ := format_block_shape block d hd
    subst hx
    refine ⟨?_, ?_, ?_⟩ <;> simp [blockBase, dGet]

/-- Witness for the amended C10 on the empty block dictionary. -/
theorem c10_format_block_defaults_witness :
    (hashableType [] = true ∧ hasTypePayload [] = false ∧
      format_block [] = Except.ok (blockBase [])) ∧
    dGet (blockBase []) "id" = some (JVal.str "") := by
  have h := c10_format_block_defaults []
  refine ⟨⟨rfl, rfl, (h.1 rfl rfl).1⟩, ?_⟩
  have h2 := (h.2 (blockBase []) (h.1 rfl rfl).1).1
  exact h2

/-- C9: a block payload carrying both an uploaded file reference and an
external reference extracts the file url, in format_block and in the
image branch of parse_page_content alike. -/
theorem c9_image_file_preferred (block : Dict) (pf ff : List (String × JVal))
    (a : JVal)
    (hbt : dGetD block "type" (JVal.str "unknown") = JVal.str "image")
    (hpayload : dGet block "image" = some (JVal.obj pf))
    (hnort : dGet pf "rich_text" = none)
    (hfile : dGet pf "file" = some (JVal.obj ff))
    (hext : (dGet pf "external").isSome = true)
    (hurl : dGet ff "url" = some a) :
    format_block block = Except.ok (blockBase block ++ [("url", a)]) ∧
    parse_image_url (JVal.obj pf) = Except.ok (some a) := by
  have hboth := hext
  have hfields : format_block_payload_fields "image" (JVal.obj pf) =
      Except.ok [("url", a)] := by
    unfold format_block_payload_fields
    simp [pyInS, pyGetItem, pyDictGet, dGetD, hnort, hfile, hurl, bind,
      Except.bind, pure, Except.pure]
  constructor
  · unfold format_block
    simp only [hbt, hpayload, hfields, Except.map]
  · unfold parse_image_url
    simp [pyInS, pyGetItem, pyDictGetOpt, hfile, hurl, bind, Except.bind,
      pure, Except.pure]

/-- Witness for C9 on a concrete image block with both references. -/
theorem c9_image_file_preferred_witness :
    (dGetD imageBlockBoth "type" (JVal.str "unknown") = JVal.str "image" ∧
      dGet imageBlockBoth "image" = some imagePayloadBoth ∧
      (dGet [("file", JVal.obj [("url", JVal.str "A")]),
             ("external", JVal.obj [("url", JVal.str "B")])]
        "external").isSome = true) ∧
    format_block imageBlockBoth =
      Except.ok (blockBase imageBlockBoth ++ [("url", JVal.str "A")]) ∧
    parse_image_url imagePayloadBoth = Except.ok (some (JVal.str "A")) := by
  have h := c9_image_file_preferred imageBlockBoth
    [("file", JVal.obj [("url", JVal.str "A")]),
     ("external", JVal.obj [("url", JVal.str "B")])]
    [("url", JVal.str "A")] (JVal.str "A") rfl rfl rfl rfl rfl rfl
  exact ⟨⟨rfl, rfl, rfl⟩, h.1, h.2⟩

/-! ## Helper lemmas about text extraction -/

theorem collect_text_parts_good (runs : List JVal) (cs : List String)
    (h : List.Forall₂ (fun r s => ∃ fields tf,
        r = JVal.obj fields ∧ dGet fields "text" = some (JVal.obj tf) ∧
        dGet tf "content" = some (JVal.str s)) runs cs) :
    collect_text_parts runs = Except.ok (cs.map JVal.str) := by
  induction h with
  | nil => rfl
  | cons hr hrest ih =>
    obtain ⟨fields, tf, hr1, hr2, hr3⟩ := hr
    subst hr1
    simp [collect_text_parts, pyInS, pyGetItem, hr2, hr3, ih, bind,
      Except.bind, pure, Except.pure]

theorem ensure_strings_strs (cs : List String) :
    ensure_strings (cs.map JVal.str) = Except.ok cs := by
  induction cs with
  | nil => rfl
  | cons a as ih => simp [ensure_strings, ih, Except.map]

theorem joinWithSpace_strs (cs : List String) :
    joinWithSpace (cs.map JVal.str) =
      Except.ok (String.intercalate " " cs) := by
  simp [joinWithSpace, ensure_strings_strs, Except.map]

/-- C7: on a list of rich text runs whose text objects carry the given
contents, extraction returns exactly those contents joined by single
spaces, and the empty list yields the empty string; the function is pure,
so repeated application gives the identical output. -/
theorem c7_rich_text_extraction (runs : List JVal) (cs : List String)
    (h : List.Forall₂ (fun r s => ∃ fields tf,
        r = JVal.obj fields ∧ dGet fields "text" = some (JVal.obj tf) ∧
        dGet tf "content" = some (JVal.str s)) runs cs) :
    extract_text_from_rich_text (JVal.list runs) =
      Except.ok (String.intercalate " " cs) ∧
    extract_text_from_rich_text (JVal.list []) = Except.ok "" := by
  constructor
  · unfold extract_text_from_rich_text
    simp [pyIter, collect_text_parts_good runs cs h, joinWithSpace_strs,
      bind, Except.bind]
  · rfl

/-- Witness for C7 on a single concrete run. -/
theorem c7_rich_text_extraction_witness :
    List.Forall₂ (fun r s => ∃ fields tf,
        r = JVal.obj fields ∧ dGet fields "text" = some (JVal.obj tf) ∧
        dGet tf "content" = some (JVal.str s)) [runHello] ["Hello"] ∧
    extract_text_from_rich_text (JVal.list [runHello]) =
      Except.ok "Hello" := by
  have hf : List.Forall₂ (fun r s => ∃ fields tf,
      r = JVal.obj fields ∧ dGet fields "text" = some (JVal.obj tf) ∧
      dGet tf "content" = some (JVal.str s)) [runHello] ["Hello"] := by
    refine List.Forall₂.cons ?_ List.Forall₂.nil
    exact ⟨[("text", JVal.obj [("content", JVal.str "Hello")])],
      [("content", JVal.str "Hello")], rfl, rfl, rfl⟩
  have h := c7_rich_text_extraction [runHello] ["Hello"] hf
  exact ⟨hf, h.1⟩

/-- C8 is false as stated: extract_title reads the plain_text field while
extract_text_from_rich_text reads the content field of the text object,
so a run with only the latter separates the two functions. -/
theorem c8_title_extraction_differs :
    extract_title [("title", JVal.list [runHello])] ≠
      extract_text_from_rich_text (JVal.list [runHello]) := by
  intro h
  rw [show extract_title [("title", JVal.list [runHello])] =
        Except.ok "" from rfl,
      show extract_text_from_rich_text (JVal.list [runHello]) =
        Except.ok "Hello" from rfl] at h
  exact absurd (Except.ok.inj h) (by decide)

/-- C8 (amended): extract_title joins the plain_text fields of the runs
rather than applying the rich text rule, so the two functions are not
extensionally equal on title run lists; they do agree on title run lists
whose every run carries both a plain_text field and a text object content
field with the same string. -/
theorem c8_title_matches_rich_text (runs : List JVal) (cs : List String)
    (h : List.Forall₂ (fun r s => ∃ fields tf,
        r = JVal.obj fields ∧
        dGet fields "plain_text" = some (JVal.str s) ∧
        dGet fields "text" = some (JVal.obj tf) ∧
        dGet tf "content" = some (JVal.str s)) runs cs) :
    extract_title [("title", JVal.list runs)] =
      extract_text_from_rich_text (JVal.list runs) := by
  have h7 : List.Forall₂ (fun r s => ∃ fields tf,
      r = JVal.obj fields ∧ dGet fields "text" = some (JVal.obj tf) ∧
      dGet tf "content" = some (JVal.str s)) runs cs := by
    refine List.Forall₂.imp ?_ h
    intro a b hx
    obtain ⟨fields, tf, h1, _, h3, h4⟩ := hx
    exact ⟨fields, tf, h1, h3, h4⟩
  have hrt : extract_text_from_rich_text (JVal.list runs) =
      Except.ok (String.intercalate " " cs) := by
    unfold extract_text_from_rich_text
    simp [pyIter, collect_text_parts_good runs cs h7, joinWithSpace_strs,
      bind, Except.bind]
  have hmap : map_plain_text runs = Except.ok (cs.map JVal.str) := by
    clear hrt h7
    induction h with
    | nil => rfl
    | cons hr hrest ih =>
      obtain ⟨fields, tf, hr1, hr2, _, _⟩ := hr
      subst hr1
      simp [map_plain_text, pyDictGet, dGetD, hr2, ih, bind, Except.bind,
        pure, Except.pure]
  rw [hrt]
  unfold extract_title
  rcases hruns : runs with _ | ⟨r, rs⟩
  · have hcs : cs = [] := by
      subst hruns
      cases h
      rfl
    subst hcs
    rfl
  · subst hruns
    simp [dGetD, dGet, pyFalsy, pyIter, hmap, joinWithSpace_strs, bind,
      Except.bind, pure, Except.pure]

/-- Witness for the amended C8 on a run with consistent fields. -/
theorem c8_title_matches_rich_text_witness :
    List.Forall₂ (fun r s => ∃ fields tf,
        r = JVal.obj fields ∧
        dGet fields "plain_text" = some (JVal.str s) ∧
        dGet fields "text" = some (JVal.obj tf) ∧
        dGet tf "content" = some (JVal.str s)) [runBoth] ["Hi"] ∧
    extract_title [("title", JVal.list [runBoth])] =
      extract_text_from_rich_text (JVal.list [runBoth]) := by
  have hf : List.Forall₂ (fun r s => ∃ fields tf,
      r = JVal.obj fields ∧
      dGet fields "plain_text" = some (JVal.str s) ∧
      dGet fields "text" = some (JVal.obj tf) ∧
      dGet tf "content" = some (JVal.str s)) [runBoth] ["Hi"] := by
    refine List.Forall₂.cons ?_ List.Forall₂.nil
    exact ⟨[("plain_text", JVal.str "Hi"),
      ("text", JVal.obj [("content", JVal.str "Hi")])],
      [("content", JVal.str "Hi")], rfl, rfl, rfl, rfl⟩
  exact ⟨hf, c8_title_matches_rich_text [runBoth] ["Hi"] hf⟩

/-! ## Helper lemmas about the walker -/

theorem processBlocks_total
    (child : Option (String → Except String WalkRet × Nat)) :
    ∀ blocks : List Dict,
      (∀ b ∈ blocks, ∃ fb, format_block b = Except.ok fb) →
      ∃ l n, processBlocks child blocks = (Except.ok l, n) ∧
        l.length = blocks.length := by
  intro blocks
  induction blocks with
  | nil => intro _; exact ⟨[], 0, rfl, rfl⟩
  | cons b rest ih =>
    intro h
    obtain ⟨fb, hfb⟩ := h b (List.mem_cons_self b rest)
    obtain ⟨l, n, hrest, hlen⟩ := ih (fun q hq => h q (List.mem_cons_of_mem _ hq))
    simp only [processBlocks, hfb, hrest]
    exact ⟨_, _, rfl, by simp [hlen]⟩

theorem processBlocks_none (blocks : List Dict) :
    processBlocks none blocks = (mapFormat blocks, 0) := by
  induction blocks with
  | nil => rfl
  | cons b rest ih =>
    simp only [processBlocks, ih]
    cases hfb : format_block b with
    | error m => simp [mapFormat, hfb, bind, Except.bind]
    | ok fb =>
      cases hrest : mapFormat rest with
      | error m2 =>
        simp [mapFormat, hfb, hrest, bind, Except.bind]
      | ok l =>
        simp [mapFormat, hfb, hrest, bind, Except.bind, pure,
          Except.pure]

theorem walkPage_none_one_request (fetch : String → Nat → FetchResult)
    (pid : String) (mb : Nat) :
    (walkPage fetch none pid mb).2 = 1 := by
  unfold walkPage
  cases hr : fetch (stripHyphens pid) mb with
  | raises m => rfl
  | resp s t res hm =>
    by_cases hs : s = 200
    · simp only [hs, if_pos rfl, processBlocks_none]
      cases hmm : mapFormat res <;> simp [hmm]
    · simp [hs]

/-- C2 is false as stated: a recursive child fetch that returns the error
dictionary, here a 404, leaves the parent formatted block with neither a
children field nor any error marker, while the claim requires a marker;
only a raised exception produces the children_error marker. -/
theorem c2_error_value_drops_marker :
    get_page_content_optimized fetchChildError 1 "c" 50 =
      (Except.ok (WalkRet.error "Erro 404: Not found"), 1) ∧
    get_page_content_optimized fetchChildError 2 "p" 100 =
      (Except.ok (WalkRet.ok [blockWithChild] 1 false), 2) ∧
    dGet blockWithChild "children_error" = none ∧
    dGet blockWithChild "children" = none :=
  ⟨rfl, rfl, rfl, rfl⟩

/-- C2 (amended): a recursive child fetch that raises attaches a
children_error marker to the parent block and the walk continues; a child
fetch that returns the error dictionary is silently dropped; in either
case every top level block whose formatting succeeds is returned, so the
full top level sequence is preserved. -/
theorem c2_child_failure_isolation
    (child : String → Except String WalkRet × Nat)
    (block : Dict) (rest : List Dict) (fb : Dict) (cid m : String)
    (k n2 : Nat) (l : List Dict)
    (hfb : format_block block = Except.ok fb)
    (hhc : pyFalsy (dGetD block "has_children" (JVal.bool false)) = false)
    (hid : dGet block "id" = some (JVal.str cid))
    (hraise : child cid = (Except.error m, k))
    (hrest : processBlocks (some child) rest = (Except.ok l, n2)) :
    processBlocks (some child) (block :: rest) =
      (Except.ok ((fb ++ [("children_error", JVal.str m)]) :: l), k + n2) ∧
    (∀ (blocks2 : List Dict)
        (child2 : Option (String → Except String WalkRet × Nat)),
      (∀ b ∈ blocks2, ∃ fb2, format_block b = Except.ok fb2) →
      ∃ l2 n3, processBlocks child2 blocks2 = (Except.ok l2, n3) ∧
        l2.length = blocks2.length) := by
  constructor
  · simp only [processBlocks, hfb, hhc, hid, hraise, hrest]
    simp
  · intro blocks2 child2 hok
    exact processBlocks_total child2 blocks2 hok

/-- Witness for the amended C2 on a concrete raising child fetch. -/
theorem c2_child_failure_isolation_witness :
    (format_block blockWithChild = Except.ok blockWithChild ∧
      pyFalsy (dGetD blockWithChild "has_children" (JVal.bool false)) = false ∧
      dGet blockWithChild "id" = some (JVal.str "c") ∧
      get_page_content_optimized fetchChildRaises 1 "c" 50 =
        (Except.error "boom", 1)) ∧
    processBlocks
        (some fun cid => get_page_content_optimized fetchChildRaises 1 cid 50)
        [blockWithChild] =
      (Except.ok [blockWithChild ++ [("children_error", JVal.str "boom")]],
        1) := by
  have h := c2_child_failure_isolation
    (fun cid => get_page_content_optimized fetchChildRaises 1 cid 50)
    blockWithChild [] blockWithChild "c" "boom" 1 0 []
    rfl rfl rfl rfl rfl
  exact ⟨⟨rfl, rfl, rfl, rfl⟩, h.1⟩

/-- C6: at depth one the walker issues exactly one request and formats
the blocks with no child fetching whatever the has_children flags say;
at depth two or more, a child with a truthy has_children flag is fetched
by the recursive invocation with the depth lowered by exactly one and the
fixed page size cap of fifty, and its blocks become the children field. -/
theorem c6_depth_budget (fetch : String → Nat → FetchResult) (pid : String)
    (mb k : Nat) (blocks : List Dict) (block : Dict) (text cid : String)
    (hm : Bool) (fb : Dict) (cbs : List Dict) (cnt : Nat) (chm : Bool)
    (kreq : Nat)
    (hfetch : fetch (stripHyphens pid) mb =
      FetchResult.resp 200 text [block] hm)
    (hfb : format_block block = Except.ok fb)
    (hhc : pyFalsy (dGetD block "has_children" (JVal.bool false)) = false)
    (hid : dGet block "id" = some (JVal.str cid))
    (hchild : get_page_content_optimized fetch (k + 1) cid 50 =
      (Except.ok (WalkRet.ok cbs cnt chm), kreq)) :
    (get_page_content_optimized fetch 1 pid mb).2 = 1 ∧
    processBlocks none blocks = (mapFormat blocks, 0) ∧
    get_page_content_optimized fetch (k + 2) pid mb =
      (Except.ok (WalkRet.ok
        [fb ++ [("children", JVal.list (cbs.map JVal.obj))]] 1 hm),
        kreq + 1) := by
  refine ⟨walkPage_none_one_request fetch pid mb, processBlocks_none blocks, ?_⟩
  have hunfold : get_page_content_optimized fetch (k + 2) pid mb =
      walkPage fetch
        (some fun c2 => get_page_content_optimized fetch (k + 1) c2 50)
        pid mb := rfl
  rw [hunfold]
  unfold walkPage
  rw [hfetch]
  simp only [if_pos rfl, processBlocks, hfb, hhc, hid, hchild]
  simp

/-- Witness for C6 on a concrete two level walk. -/
theorem c6_depth_budget_witness :
    (fetchChildOk (stripHyphens "p") 100 =
      FetchResult.resp 200 "" [blockWithChild] false ∧
      format_block blockWithChild = Except.ok blockWithChild ∧
      dGet blockWithChild "id" = some (JVal.str "c") ∧
      get_page_content_optimized fetchChildOk 1 "c" 50 =
        (Except.ok (WalkRet.ok [] 0 false), 1)) ∧
    (get_page_content_optimized fetchChildOk 1 "p" 100).2 = 1 ∧
    get_page_content_optimized fetchChildOk 2 "p" 100 =
      (Except.ok (WalkRet.ok
        [blockWithChild ++ [("children", JVal.list [])]] 1 false), 2) := by
  have h := c6_depth_budget fetchChildOk "p" 100 0 [] blockWithChild "" "c"
    false blockWithChild [] 0 false 1 rfl rfl rfl rfl rfl
  refine ⟨⟨rfl, rfl, rfl, rfl⟩, h.1, ?_⟩
  simpa using h.2.2

/-- Witness for C4 at a concrete cursorless page. -/
theorem c4_pagination_termination_witness :
    ((∀ q ∈ [pageNoCursor], q.results.length ≤ 100) ∧
      pageNoCursor.status = 200 ∧ pageNoCursor.has_more = true ∧
      pageNoCursor.next_cursor = none ∧ 0 < 5) ∧
    get_paginated_content [pageNoCursor] 5 =
      (PagOutcome.ok pageNoCursor.results pageNoCursor.results.length, 1) := by
  have hsmall : ∀ q ∈ [pageNoCursor], q.results.length ≤ 100 := by
    intro q hq
    simp only [List.mem_singleton] at hq
    subst hq
    simp [pageNoCursor]
  refine ⟨⟨hsmall, rfl, rfl, rfl, by norm_num⟩, ?_⟩
  exact (c4_pagination_termination [pageNoCursor] pageNoCursor [] 5 hsmall
    rfl rfl rfl (by norm_num)).2

end NotionMCP
